import Mathlib

/-!
Verification of the training orchestration layer of the
`YOLO_and_other_NNLibraries` repository.

The repository is glue code over the nnabla deep-learning framework.  We
model the observable behaviour of the two `Trainer.train` methods
(`src/GANs/pix2pixHD/trainer.py` and
`src/GANs/stylegan2-distillation/train.py`) as event traces: every call the
method makes into the framework that the specification talks about
(zeroing gradients, forward/backward passes, all-reduce, solver updates,
learning-rate assignment, checkpoint saving, parameter loading) becomes one
event in a `List Ev`.  Control flow (epoch loop, inner iteration loop, the
`if` guards on `n_procs`, `rank`, `epoch % k` and on the load path) is
translated exactly from the source; straight-line graph-construction code
that emits no claim-relevant framework calls is not reflected as events.

Numeric conventions: Python `//` on non-negative integers is `Nat.div`;
Python `max(x, 0)` on an `int` is `max x 0` on `Int`; Python string
formatting `'{:03d}'.format(e)` is `pad3`.
-/

/-- The two solvers of each trainer. -/
inductive Sol where
  | g
  | d
deriving DecidableEq, Repr

/-- One observable framework call made by a `Trainer.train` method. -/
inductive Ev where
  /-- `logger.warn("Path to load params is not found. ...")` -/
  | loadWarn (path : String)
  /-- `nn.load_parameters(path)` -/
  | loadParams (path : String)
  /-- `g_solver.set_parameters(get_params_startswith("generator"), reset=False, retain_state=True)` -/
  | gSetParams
  /-- `s_solver.set_learning_rate(v)` -/
  | setLr (s : Sol) (v : ℚ)
  /-- `reporter.epoch_start(...)` / `reporter.start(...)` -/
  | epochStart
  /-- assigning the next minibatch to the input variables (`real.d = ...` etc.) -/
  | setInputs
  /-- `fake.forward()` -/
  | fakeForward
  /-- `d_solver.zero_grad()` -/
  | dZeroGrad
  /-- `d_loss.forward()` -/
  | dLossForward
  /-- `d_loss.backward(clear_buffer=True)` -/
  | dLossBackward
  /-- `comm.all_reduce([x.grad for x in d_solver.get_parameters().values()], division=False, inplace=False)` -/
  | dAllReduce
  /-- `d_solver.update()` -/
  | dUpdate
  /-- `unlinked_fake.grad.zero()` -/
  | unlinkedGradZero
  /-- `g_solver.zero_grad()` -/
  | gZeroGrad
  /-- `g_loss.forward()` -/
  | gLossForward
  /-- `g_loss.backward(clear_buffer=True)` -/
  | gLossBackward
  /-- `fake.backward(grad=None, clear_buffer=True)` -/
  | fakeBackward
  /-- `comm.all_reduce([x.grad for x in g_solver.get_parameters().values()], division=False, inplace=False)` -/
  | gAllReduce
  /-- `g_solver.update()` -/
  | gUpdate
  /-- `reporter()` at the end of an iteration -/
  | report
  /-- `reporter.epoch_end(...)` / `reporter.step(...)` -/
  | epochEnd
  /-- `nn.save_parameters(file)` -/
  | save (file : String)
deriving DecidableEq, Repr

/-- The data a `Trainer.train` run depends on.  `pathExists` models
`os.path.exists`, `lrSched` models the learning-rate scheduler object
(`LearningRateScheduler` / `LinearDecayScheduler`, defined outside `src/`),
`fixGlobalEpoch` is the `self.fix_global_epoch` attribute (already clamped by
`__init__`), `dataIterSize` is `self.data_iter._size` and `batchSize` is the
batch size used by the progress iterator. -/
structure TrainCfg where
  n_procs : Nat
  rank : Nat
  dataIterSize : Nat
  batchSize : Nat
  maxEpoch : Nat
  fixGlobalEpoch : Int
  loadPath : Option String
  pathExists : String → Bool
  savePath : String
  lrSched : Nat → ℚ

/-- Python `os.path.join(a, b)` for a single join step. -/
def pathJoin (a b : String) : String :=
  if (String.data "/").isPrefixOf b.data then b
  else if a = "" then b
  else if (String.data "/").isSuffixOf a.data then a ++ b
  else a ++ "/" ++ b

/-- Python `'{:03d}'.format(e)`: decimal digits of `e`, zero-padded on the
left to width at least 3. -/
def pad3 (e : Nat) : String :=
  let s := toString e
  String.mk (List.replicate (3 - s.length) '0') ++ s

/-- The checkpoint file name used inside the epoch loop:
`'param_{:03d}.h5'.format(epoch)`. -/
def epochSaveName (e : Nat) : String :=
  "param_" ++ pad3 e ++ ".h5"

/-- pix2pixHD `trainer.py` lines 90-95: warn-and-skip when the load path is
missing, `nn.load_parameters` when it exists, nothing when `load_path` is
falsy (`None` or the empty string). -/
def pixLoadTrace (cfg : TrainCfg) : List Ev :=
  match cfg.loadPath with
  | none => []
  | some p =>
    if p = "" then []
    else if cfg.pathExists p then [Ev.loadParams p] else [Ev.loadWarn p]

/-- pix2pixHD `trainer.py`: the number of inner iterations,
`self.data_iter._size // self.data_iter._batch_size`. -/
def pixIters (cfg : TrainCfg) : Nat :=
  cfg.dataIterSize / cfg.batchSize

/-- pix2pixHD `trainer.py` lines 131-168: one iteration of the inner
training loop. -/
def pixIterTrace (cfg : TrainCfg) : List Ev :=
  [Ev.setInputs, Ev.fakeForward,
   Ev.dZeroGrad, Ev.dLossForward, Ev.dLossBackward]
  ++ (if 1 < cfg.n_procs then [Ev.dAllReduce] else [])
  ++ [Ev.dUpdate,
      Ev.unlinkedGradZero, Ev.gZeroGrad, Ev.gLossForward, Ev.gLossBackward,
      Ev.fakeBackward]
  ++ (if 1 < cfg.n_procs then [Ev.gAllReduce] else [])
  ++ [Ev.gUpdate, Ev.report]

/-- pix2pixHD `trainer.py` lines 115-179: one epoch of the training loop,
including the `fix_global_epoch` re-registration, the learning-rate update,
the inner loop and the periodic (period 10, rank 0) checkpoint. -/
def pixEpochTrace (cfg : TrainCfg) (e : Nat) : List Ev :=
  (if (e : Int) = cfg.fixGlobalEpoch then [Ev.gSetParams] else [])
  ++ [Ev.setLr Sol.g (cfg.lrSched e), Ev.setLr Sol.d (cfg.lrSched e),
      Ev.epochStart]
  ++ (List.replicate (pixIters cfg) (pixIterTrace cfg)).flatten
  ++ [Ev.epochEnd]
  ++ (if e % 10 = 0 ∧ cfg.rank = 0
      then [Ev.save (pathJoin cfg.savePath (epochSaveName e))] else [])

/-- pix2pixHD `trainer.py` lines 181-182: the final checkpoint, rank 0
only. -/
def pixFinalTrace (cfg : TrainCfg) : List Ev :=
  if cfg.rank = 0 then [Ev.save (pathJoin cfg.savePath "param_final.h5")]
  else []

/-- The full observable trace of pix2pixHD `Trainer.train`. -/
def pixTrainTrace (cfg : TrainCfg) : List Ev :=
  pixLoadTrace cfg
  ++ ((List.range cfg.maxEpoch).map (pixEpochTrace cfg)).flatten
  ++ pixFinalTrace cfg

/-- stylegan2-distillation `train.py` lines 85-90: identical load handling. -/
def sgLoadTrace (cfg : TrainCfg) : List Ev :=
  match cfg.loadPath with
  | none => []
  | some p =>
    if p = "" then []
    else if cfg.pathExists p then [Ev.loadParams p] else [Ev.loadWarn p]

/-- stylegan2-distillation `train.py`: the number of inner iterations,
`self.data_iter._size // self.bs // self.comm.n_procs`. -/
def sgIters (cfg : TrainCfg) : Nat :=
  cfg.dataIterSize / cfg.batchSize / cfg.n_procs

/-- stylegan2-distillation `train.py` lines 124-160: one iteration of the
inner training loop. -/
def sgIterTrace (cfg : TrainCfg) : List Ev :=
  [Ev.setInputs, Ev.fakeForward,
   Ev.dZeroGrad, Ev.dLossForward, Ev.dLossBackward]
  ++ (if 1 < cfg.n_procs then [Ev.dAllReduce] else [])
  ++ [Ev.dUpdate,
      Ev.unlinkedGradZero, Ev.gZeroGrad, Ev.gLossForward, Ev.gLossBackward,
      Ev.fakeBackward]
  ++ (if 1 < cfg.n_procs then [Ev.gAllReduce] else [])
  ++ [Ev.gUpdate, Ev.report]

/-- stylegan2-distillation `train.py` lines 109-179: one epoch, with the
periodic (period 5, rank 0) checkpoint. -/
def sgEpochTrace (cfg : TrainCfg) (e : Nat) : List Ev :=
  (if (e : Int) = cfg.fixGlobalEpoch then [Ev.gSetParams] else [])
  ++ [Ev.setLr Sol.g (cfg.lrSched e), Ev.setLr Sol.d (cfg.lrSched e),
      Ev.epochStart]
  ++ (List.replicate (sgIters cfg) (sgIterTrace cfg)).flatten
  ++ [Ev.epochEnd]
  ++ (if e % 5 = 0 ∧ cfg.rank = 0
      then [Ev.save (pathJoin cfg.savePath (epochSaveName e))] else [])

/-- stylegan2-distillation `train.py` lines 181-183: the final checkpoint,
rank 0 only. -/
def sgFinalTrace (cfg : TrainCfg) : List Ev :=
  if cfg.rank = 0 then [Ev.save (pathJoin cfg.savePath "param_final.h5")]
  else []

/-- The full observable trace of stylegan2-distillation `Trainer.train`. -/
def sgTrainTrace (cfg : TrainCfg) : List Ev :=
  sgLoadTrace cfg
  ++ ((List.range cfg.maxEpoch).map (sgEpochTrace cfg)).flatten
  ++ sgFinalTrace cfg

/-- Python `k.split("/")` on the underlying character list: split at every
`'/'`, keeping empty pieces, never returning an empty list. -/
def splitSlashAux : List Char → List Char → List (List Char)
  | [], acc => [acc.reverse]
  | c :: cs, acc =>
    if c = '/' then acc.reverse :: splitSlashAux cs []
    else splitSlashAux cs (c :: acc)

/-- Python `k.split("/")`. -/
def splitSlash (k : String) : List String :=
  (splitSlashAux k.data []).map String.mk

/-- Python `k.startswith(p)`. -/
def pyStartswith (k p : String) : Bool :=
  p.data.isPrefixOf k.data

/-- Python `l[-2]` on a list: the second-to-last element; `none` models the
`IndexError` raised when the list has fewer than two elements. -/
def pyGetNeg2 (l : List String) : Option String :=
  if l.length < 2 then none else l.get? (l.length - 2)

/-- The per-key test of the `ignore_in` filter in `get_params_startswith`:
`k.split("/")[-2] != "instance_normalization"`, `none` on `IndexError`. -/
def keepParam (k : String) : Option Bool :=
  (pyGetNeg2 (splitSlash k)).map (fun c => c != "instance_normalization")

/-- A filtering dict comprehension whose per-element test may raise
(modelled by `Option`): `none` as soon as one test raises. -/
def filterOpt {α : Type} (f : α → Option Bool) : List α → Option (List α)
  | [] => some []
  | a :: as =>
    match f a with
    | none => none
    | some b =>
      match filterOpt f as with
      | none => none
      | some r => some (if b then a :: r else r)

/-- pix2pixHD `trainer.py` lines 15-23, `get_params_startswith`.  The global
dict `nn.get_parameters()` is passed explicitly as an association list (a
Python dict preserves insertion order). -/
def get_params_startswith {V : Type} (params : List (String × V))
    (s : String) (ignore_in : Bool := true) : Option (List (String × V)) :=
  match (if ignore_in then filterOpt (fun kv => keepParam kv.1) params
         else some params) with
  | none => none
  | some ps => some (ps.filter (fun kv => pyStartswith kv.1 s))

/-- The second-to-last `'/'`-separated component of a key, as the claim
phrases it (meaningful when the key has at least two components). -/
def secondToLastComp (k : String) : String :=
  (splitSlash k).getD ((splitSlash k).length - 2) ""

/-- pix2pixHD `trainer.py` line 43: `self.fix_global_epoch =
max(fix_global_epoch, 0)`. -/
def pix_fix_global_epoch_attr (fix_global_epoch : Int) : Int :=
  max fix_global_epoch 0

/-- stylegan2-distillation `train.py` line 34: `self.fix_global_epoch =
max(tconf.fix_global_epoch, 0)`. -/
def sg_fix_global_epoch_attr (fix_global_epoch : Int) : Int :=
  max fix_global_epoch 0

/-- The field record of the WaveGlow `HParams` object
(`src/speech-synthesis/TTS/waveglow/hparams.py`).  The `HParams` class
itself lives outside `src/` and simply stores the keyword arguments as
attributes; integer-valued fields are `Nat`, float-valued fields are exact
rationals, `anneal_steps=()` is the empty list. -/
structure WaveglowHParams where
  data_dir : String
  save_data_dir : String
  out_variables : List String
  sr : Nat
  n_fft : Nat
  n_mels : Nat
  mel_fmin : ℚ
  mel_fmax : ℚ
  hop_length : Nat
  win_length : Nat
  n_flows : Nat
  n_groups : Nat
  n_early_every : Nat
  n_early_size : Nat
  sigma : ℚ
  segment_length : Nat
  wn_n_layers : Nat
  wn_kernel_size : Nat
  wn_n_channels : Nat
  seed : Nat
  batch_size : Nat
  epoch : Nat
  print_frequency : Nat
  epochs_per_checkpoint : Nat
  output_path : String
  weight_decay : ℚ
  max_norm : ℚ
  alpha : ℚ
  anneal_factor : ℚ
  anneal_steps : List Nat

/-- `hparams.py` lines 17-58: the single `HParams` instance. -/
def hparams : WaveglowHParams where
  data_dir := "./data/LJSpeech-1.1/"
  save_data_dir := "./data/LJSpeech-1.1/waveglow"
  out_variables := ["audio"]
  sr := 22050
  n_fft := 1024
  n_mels := 80
  mel_fmin := 0
  mel_fmax := 8000
  hop_length := 256
  win_length := 1024
  n_flows := 12
  n_groups := 8
  n_early_every := 4
  n_early_size := 2
  sigma := 1
  segment_length := 8000
  wn_n_layers := 8
  wn_kernel_size := 3
  wn_n_channels := 256
  seed := 123456
  batch_size := 4
  epoch := 1001
  print_frequency := 20
  epochs_per_checkpoint := 50
  output_path := "./log/waveglow/"
  weight_decay := 0
  max_norm := 34028234663852886 * 10 ^ 22
  alpha := 1 / 10000
  anneal_factor := 1 / 10
  anneal_steps := []

/-- A tensor shape (one `Nat` per axis); the decoder model tracks shapes
only. -/
abbrev Shape := List Nat

/-- Shape semantics of `F.tile(x, reps)` when `reps` has one entry per
axis: each axis length is multiplied by its repetition count. -/
def tileShape (s reps : Shape) : Shape :=
  List.zipWith (fun a r => a * r) s reps

/-- Shape semantics of elementwise `x + y`: defined only when the two
shapes agree. -/
def addShape (a b : Shape) : Option Shape :=
  if a = b then some a else none

/-- Shape semantics of `F.transpose(m, (0, 2, 1))`. -/
def transpose021 (s : Shape) : Shape :=
  [s.getD 0 0, s.getD 2 0, s.getD 1 0]

/-- One observable operation performed by `Decoder.call`
(`src/speech-synthesis/TTS/FastSpeech2/model/decoder.py`). -/
inductive DecOp where
  /-- `x = x + F.tile(self.pos_enc, (hp.batch_size, 1, 1))` -/
  | addPosEnc
  /-- `F.transpose(mask, (0, 2, 1))` -/
  | transposeMask
  /-- `x = getattr(self, f"fft_block_{i}")(x, mask)` -/
  | fftBlock (i : Nat)
  /-- `x = masked_fill(x, ...)` -/
  | maskedFillOp
deriving DecidableEq, Repr

/-- The hyper-parameters `Decoder.call` reads.  (`max_len_mel` and
`decoder_hidden` are consumed only by the external
`get_positional_encoding`, whose result shape is a parameter of
`decoderCall`.) -/
structure DecoderHP where
  batch_size : Nat
  decoder_layer : Nat

/-- The `for i in range(hp.decoder_layer)` loop of `Decoder.call`: apply the
FFT blocks in index order, recording one `fftBlock i` operation each;
`none` as soon as a block is undefined on its input shape. -/
def runBlocks (fft : Nat → Shape → Option Shape → Option Shape)
    (mask : Option Shape) : List Nat → Shape → Option (Shape × List DecOp)
  | [], x => some (x, [])
  | i :: rest, x =>
    match fft i x mask with
    | none => none
    | some x1 =>
      match runBlocks fft mask rest x1 with
      | none => none
      | some (x2, tr) => some (x2, DecOp.fftBlock i :: tr)

/-- `Decoder.call` (decoder.py lines 34-58) at the shape level, together
with the list of operations it performs.  The externally defined pieces are
parameters: `posEnc` is the shape of `self.pos_enc` (built by
`get_positional_encoding` in `__init__`), `fft i` is the shape semantics of
`self.fft_block_i`, and `maskedFill` that of `utils.ops.masked_fill`. -/
def decoderCall (hp : DecoderHP) (posEnc : Shape)
    (fft : Nat → Shape → Option Shape → Option Shape)
    (maskedFill : Shape → Shape → Option Shape)
    (x : Shape) (mask : Option Shape) : Option (Shape × List DecOp) :=
  match addShape x (tileShape posEnc [hp.batch_size, 1, 1]) with
  | none => none
  | some x1 =>
    match mask with
    | none =>
      match runBlocks fft none (List.range hp.decoder_layer) x1 with
      | none => none
      | some (x2, tr) => some (x2, DecOp.addPosEnc :: tr)
    | some m =>
      let m1 := transpose021 m
      match runBlocks fft (some m1) (List.range hp.decoder_layer) x1 with
      | none => none
      | some (x2, tr) =>
        match maskedFill x2 (transpose021 m1) with
        | none => none
        | some x3 =>
          some (x3, DecOp.addPosEnc :: DecOp.transposeMask ::
                    (tr ++ [DecOp.transposeMask, DecOp.maskedFillOp]))

/-- The eight events of the two optimization steps mentioned by claim C1. -/
def isOptStepEv : Ev → Bool
  | Ev.dZeroGrad | Ev.dLossForward | Ev.dLossBackward | Ev.dUpdate
  | Ev.gZeroGrad | Ev.gLossForward | Ev.gLossBackward | Ev.gUpdate => true
  | _ => false

/-- Solver update events. -/
def isUpdateEv : Ev → Bool
  | Ev.dUpdate | Ev.gUpdate => true
  | _ => false

/-- Learning-rate assignment events. -/
def isSetLrEv : Ev → Bool
  | Ev.setLr _ _ => true
  | _ => false

/-- Checkpoint-save events. -/
def isSaveEv : Ev → Bool
  | Ev.save _ => true
  | _ => false

/-- Events of the parameter-loading section (warning or load). -/
def isLoadEv : Ev → Bool
  | Ev.loadWarn _ | Ev.loadParams _ => true
  | _ => false

/-- Gradient all-reduce events. -/
def isAllReduceEv : Ev → Bool
  | Ev.dAllReduce | Ev.gAllReduce => true
  | _ => false

lemma sgIterTrace_eq_pix : sgIterTrace = pixIterTrace := rfl

lemma sgLoadTrace_eq_pix : sgLoadTrace = pixLoadTrace := rfl

lemma sgFinalTrace_eq_pix : sgFinalTrace = pixFinalTrace := rfl

lemma pixIterTrace_filter_opt (cfg : TrainCfg) :
    (pixIterTrace cfg).filter isOptStepEv =
      [Ev.dZeroGrad, Ev.dLossForward, Ev.dLossBackward, Ev.dUpdate,
       Ev.gZeroGrad, Ev.gLossForward, Ev.gLossBackward, Ev.gUpdate] := by
  by_cases h : 1 < cfg.n_procs
  · simp only [pixIterTrace, if_pos h]; rfl
  · simp only [pixIterTrace, if_neg h]; rfl

lemma pixIterTrace_filter_update (cfg : TrainCfg) :
    (pixIterTrace cfg).filter isUpdateEv = [Ev.dUpdate, Ev.gUpdate] := by
  by_cases h : 1 < cfg.n_procs
  · simp only [pixIterTrace, if_pos h]; rfl
  · simp only [pixIterTrace, if_neg h]; rfl

lemma pixIterTrace_filter_setLr (cfg : TrainCfg) :
    (pixIterTrace cfg).filter isSetLrEv = [] := by
  by_cases h : 1 < cfg.n_procs
  · simp only [pixIterTrace, if_pos h]; rfl
  · simp only [pixIterTrace, if_neg h]; rfl

lemma pixIterTrace_filter_save (cfg : TrainCfg) :
    (pixIterTrace cfg).filter isSaveEv = [] := by
  by_cases h : 1 < cfg.n_procs
  · simp only [pixIterTrace, if_pos h]; rfl
  · simp only [pixIterTrace, if_neg h]; rfl

lemma pixIterTrace_filter_load (cfg : TrainCfg) :
    (pixIterTrace cfg).filter isLoadEv = [] := by
  by_cases h : 1 < cfg.n_procs
  · simp only [pixIterTrace, if_pos h]; rfl
  · simp only [pixIterTrace, if_neg h]; rfl

lemma filter_ite_nil (p : Ev → Bool) (c : Prop) [Decidable c] (l : List Ev)
    (h : l.filter p = []) : (if c then l else []).filter p = [] := by
  split <;> simp [h]

/-- C1: in every inner-loop iteration of both `Trainer.train` methods the
four discriminator optimization events come, in order, strictly before the
four generator optimization events, and over a whole epoch the solver
updates strictly alternate, one discriminator update then one generator
update per iteration. -/
theorem c1_discriminator_before_generator (cfg : TrainCfg) (e : Nat) :
    (pixIterTrace cfg).filter isOptStepEv =
      [Ev.dZeroGrad, Ev.dLossForward, Ev.dLossBackward, Ev.dUpdate,
       Ev.gZeroGrad, Ev.gLossForward, Ev.gLossBackward, Ev.gUpdate]
    ∧ (sgIterTrace cfg).filter isOptStepEv =
      [Ev.dZeroGrad, Ev.dLossForward, Ev.dLossBackward, Ev.dUpdate,
       Ev.gZeroGrad, Ev.gLossForward, Ev.gLossBackward, Ev.gUpdate]
    ∧ (pixEpochTrace cfg e).filter isUpdateEv =
      (List.replicate (pixIters cfg) [Ev.dUpdate, Ev.gUpdate]).flatten
    ∧ (sgEpochTrace cfg e).filter isUpdateEv =
      (List.replicate (sgIters cfg) [Ev.dUpdate, Ev.gUpdate]).flatten := by
  refine ⟨pixIterTrace_filter_opt cfg, ?_, ?_, ?_⟩
  · rw [sgIterTrace_eq_pix]; exact pixIterTrace_filter_opt cfg
  · simp only [pixEpochTrace, List.filter_append, List.filter_flatten,
      List.map_replicate, pixIterTrace_filter_update]
    rw [filter_ite_nil, filter_ite_nil] <;> simp [isUpdateEv]
  · simp only [sgEpochTrace, sgIterTrace_eq_pix, List.filter_append,
      List.filter_flatten, List.map_replicate, pixIterTrace_filter_update]
    rw [filter_ite_nil, filter_ite_nil] <;> simp [isUpdateEv]

lemma pixEpochTrace_filter_load (cfg : TrainCfg) (e : Nat) :
    (pixEpochTrace cfg e).filter isLoadEv = [] := by
  simp only [pixEpochTrace, List.filter_append, List.filter_flatten,
    List.map_replicate, pixIterTrace_filter_load,
    apply_ite (List.filter isLoadEv)]
  simp [isLoadEv]

lemma sgEpochTrace_filter_load (cfg : TrainCfg) (e : Nat) :
    (sgEpochTrace cfg e).filter isLoadEv = [] := by
  simp only [sgEpochTrace, sgIterTrace_eq_pix, List.filter_append,
    List.filter_flatten, List.map_replicate, pixIterTrace_filter_load,
    apply_ite (List.filter isLoadEv)]
  simp [isLoadEv]

lemma pixTrainTrace_filter_load (cfg : TrainCfg) :
    (pixTrainTrace cfg).filter isLoadEv = pixLoadTrace cfg := by
  have hmid :
      ((((List.range cfg.maxEpoch).map (pixEpochTrace cfg)).flatten).filter
        isLoadEv) = [] := by
    rw [List.filter_flatten, List.map_map]
    have hmap :
        List.map (List.filter isLoadEv ∘ pixEpochTrace cfg)
          (List.range cfg.maxEpoch) =
        List.map (fun _ => ([] : List Ev)) (List.range cfg.maxEpoch) :=
      List.map_congr_left (fun e _ => pixEpochTrace_filter_load cfg e)
    rw [hmap]
    simp
  have hfin : (pixFinalTrace cfg).filter isLoadEv = [] := by
    unfold pixFinalTrace
    split <;> rfl
  have hload : (pixLoadTrace cfg).filter isLoadEv = pixLoadTrace cfg := by
    unfold pixLoadTrace
    cases cfg.loadPath with
    | none => rfl
    | some p =>
      by_cases h0 : p = ""
      · simp [h0]
      · by_cases h1 : cfg.pathExists p <;> simp [h0, h1, isLoadEv]
  simp [pixTrainTrace, List.filter_append, hmid, hfin, hload]

lemma sgTrainTrace_filter_load (cfg : TrainCfg) :
    (sgTrainTrace cfg).filter isLoadEv = sgLoadTrace cfg := by
  have hmid :
      ((((List.range cfg.maxEpoch).map (sgEpochTrace cfg)).flatten).filter
        isLoadEv) = [] := by
    rw [List.filter_flatten, List.map_map]
    have hmap :
        List.map (List.filter isLoadEv ∘ sgEpochTrace cfg)
          (List.range cfg.maxEpoch) =
        List.map (fun _ => ([] : List Ev)) (List.range cfg.maxEpoch) :=
      List.map_congr_left (fun e _ => sgEpochTrace_filter_load cfg e)
    rw [hmap]
    simp
  have hfin : (sgFinalTrace cfg).filter isLoadEv = [] := by
    rw [sgFinalTrace_eq_pix]
    unfold pixFinalTrace
    split <;> rfl
  have hload : (sgLoadTrace cfg).filter isLoadEv = sgLoadTrace cfg := by
    rw [sgLoadTrace_eq_pix]
    unfold pixLoadTrace
    cases cfg.loadPath with
    | none => rfl
    | some p =>
      by_cases h0 : p = ""
      · simp [h0]
      · by_cases h1 : cfg.pathExists p <;> simp [h0, h1, isLoadEv]
  simp [sgTrainTrace, List.filter_append, hmid, hfin, hload]

/-- C2: in both `Trainer.train` methods, when `load_path` is truthy and the
path does not exist, the whole run performs exactly one load-related action,
the warning (loading is skipped, no retry); when the path exists, exactly
one load-related action, `nn.load_parameters(load_path)`. -/
theorem c2_load_warn_and_skip (cfg : TrainCfg) (p : String)
    (hp : cfg.loadPath = some p) (hne : p ≠ "") :
    (cfg.pathExists p = false →
      (pixTrainTrace cfg).filter isLoadEv = [Ev.loadWarn p]
      ∧ (sgTrainTrace cfg).filter isLoadEv = [Ev.loadWarn p])
    ∧ (cfg.pathExists p = true →
      (pixTrainTrace cfg).filter isLoadEv = [Ev.loadParams p]
      ∧ (sgTrainTrace cfg).filter isLoadEv = [Ev.loadParams p]) := by
  rw [pixTrainTrace_filter_load, sgTrainTrace_filter_load,
    sgLoadTrace_eq_pix]
  constructor
  · intro hex
    constructor <;> simp [pixLoadTrace, hp, hne, hex]
  · intro hex
    constructor <;> simp [pixLoadTrace, hp, hne, hex]

/-- Witness for C2 at a concrete configuration: a missing path produces
exactly the warning event. -/
theorem c2_load_warn_and_skip_witness :
    (pixTrainTrace
      (TrainCfg.mk 1 0 0 1 0 0 (some "params.h5") (fun _ => false) "out"
        (fun _ => 0))).filter isLoadEv = [Ev.loadWarn "params.h5"] :=
  ((c2_load_warn_and_skip
    (TrainCfg.mk 1 0 0 1 0 0 (some "params.h5") (fun _ => false) "out"
      (fun _ => 0))
    "params.h5" rfl (by decide)).1 rfl).1

/-- C3: in every inner-loop iteration of both trainers, when
`comm.n_procs > 1` the trace contains `comm.all_reduce` on the solver's
gradients immediately before `d_solver.update` and immediately before
`g_solver.update`, and when `comm.n_procs <= 1` the iteration contains no
all-reduce at all; these are the only synchronization events. -/
theorem c3_all_reduce_iff_multiprocess (cfg : TrainCfg) :
    (1 < cfg.n_procs →
      pixIterTrace cfg =
        [Ev.setInputs, Ev.fakeForward,
         Ev.dZeroGrad, Ev.dLossForward, Ev.dLossBackward, Ev.dAllReduce,
         Ev.dUpdate,
         Ev.unlinkedGradZero, Ev.gZeroGrad, Ev.gLossForward,
         Ev.gLossBackward, Ev.fakeBackward, Ev.gAllReduce,
         Ev.gUpdate, Ev.report]
      ∧ sgIterTrace cfg =
        [Ev.setInputs, Ev.fakeForward,
         Ev.dZeroGrad, Ev.dLossForward, Ev.dLossBackward, Ev.dAllReduce,
         Ev.dUpdate,
         Ev.unlinkedGradZero, Ev.gZeroGrad, Ev.gLossForward,
         Ev.gLossBackward, Ev.fakeBackward, Ev.gAllReduce,
         Ev.gUpdate, Ev.report])
    ∧ (¬ 1 < cfg.n_procs →
      pixIterTrace cfg =
        [Ev.setInputs, Ev.fakeForward,
         Ev.dZeroGrad, Ev.dLossForward, Ev.dLossBackward,
         Ev.dUpdate,
         Ev.unlinkedGradZero, Ev.gZeroGrad, Ev.gLossForward,
         Ev.gLossBackward, Ev.fakeBackward,
         Ev.gUpdate, Ev.report]
      ∧ sgIterTrace cfg =
        [Ev.setInputs, Ev.fakeForward,
         Ev.dZeroGrad, Ev.dLossForward, Ev.dLossBackward,
         Ev.dUpdate,
         Ev.unlinkedGradZero, Ev.gZeroGrad, Ev.gLossForward,
         Ev.gLossBackward, Ev.fakeBackward,
         Ev.gUpdate, Ev.report])
    ∧ ((pixIterTrace cfg).filter isAllReduceEv =
        if 1 < cfg.n_procs then [Ev.dAllReduce, Ev.gAllReduce] else [])
    ∧ ((sgIterTrace cfg).filter isAllReduceEv =
        if 1 < cfg.n_procs then [Ev.dAllReduce, Ev.gAllReduce] else []) := by
  refine ⟨?_, ?_, ?_, ?_⟩
  · intro h
    rw [sgIterTrace_eq_pix]
    simp only [pixIterTrace, if_pos h]
    exact ⟨rfl, rfl⟩
  · intro h
    rw [sgIterTrace_eq_pix]
    simp only [pixIterTrace, if_neg h]
    exact ⟨rfl, rfl⟩
  · by_cases h : 1 < cfg.n_procs
    · simp only [pixIterTrace, if_pos h]; rfl
    · simp only [pixIterTrace, if_neg h]; rfl
  · rw [sgIterTrace_eq_pix]
    by_cases h : 1 < cfg.n_procs
    · simp only [pixIterTrace, if_pos h]; rfl
    · simp only [pixIterTrace, if_neg h]; rfl

/-- Witness for C3: concrete single-process and two-process
configurations. -/
theorem c3_all_reduce_iff_multiprocess_witness :
    pixIterTrace
      (TrainCfg.mk 2 0 0 1 0 0 none (fun _ => false) "out" (fun _ => 0)) =
      [Ev.setInputs, Ev.fakeForward,
       Ev.dZeroGrad, Ev.dLossForward, Ev.dLossBackward, Ev.dAllReduce,
       Ev.dUpdate,
       Ev.unlinkedGradZero, Ev.gZeroGrad, Ev.gLossForward,
       Ev.gLossBackward, Ev.fakeBackward, Ev.gAllReduce,
       Ev.gUpdate, Ev.report]
    ∧ pixIterTrace
      (TrainCfg.mk 1 0 0 1 0 0 none (fun _ => false) "out" (fun _ => 0)) =
      [Ev.setInputs, Ev.fakeForward,
       Ev.dZeroGrad, Ev.dLossForward, Ev.dLossBackward,
       Ev.dUpdate,
       Ev.unlinkedGradZero, Ev.gZeroGrad, Ev.gLossForward,
       Ev.gLossBackward, Ev.fakeBackward,
       Ev.gUpdate, Ev.report] :=
  ⟨((c3_all_reduce_iff_multiprocess
      (TrainCfg.mk 2 0 0 1 0 0 none (fun _ => false) "out"
        (fun _ => 0))).1 (by decide)).1,
   ((c3_all_reduce_iff_multiprocess
      (TrainCfg.mk 1 0 0 1 0 0 none (fun _ => false) "out"
        (fun _ => 0))).2.1 (by decide)).1⟩

/-- C4: in every epoch `e` the pix2pixHD trainer saves exactly one
checkpoint when `e % 10 == 0` and `comm.rank == 0` and none otherwise, the
stylegan2-distillation trainer does the same with period 5, and after the
epoch loop each trainer saves the final checkpoint exactly when
`comm.rank == 0`. -/
theorem c4_periodic_rank0_checkpoints (cfg : TrainCfg) (e : Nat) :
    (pixEpochTrace cfg e).filter isSaveEv =
      (if e % 10 = 0 ∧ cfg.rank = 0
        then [Ev.save (pathJoin cfg.savePath (epochSaveName e))] else [])
    ∧ (sgEpochTrace cfg e).filter isSaveEv =
      (if e % 5 = 0 ∧ cfg.rank = 0
        then [Ev.save (pathJoin cfg.savePath (epochSaveName e))] else [])
    ∧ (pixFinalTrace cfg).filter isSaveEv =
      (if cfg.rank = 0
        then [Ev.save (pathJoin cfg.savePath "param_final.h5")] else [])
    ∧ (sgFinalTrace cfg).filter isSaveEv =
      (if cfg.rank = 0
        then [Ev.save (pathJoin cfg.savePath "param_final.h5")] else []) := by
  refine ⟨?_, ?_, ?_, ?_⟩
  · simp only [pixEpochTrace, List.filter_append, List.filter_flatten,
      List.map_replicate, pixIterTrace_filter_save,
      apply_ite (List.filter isSaveEv)]
    simp [isSaveEv]
  · simp only [sgEpochTrace, sgIterTrace_eq_pix, List.filter_append,
      List.filter_flatten, List.map_replicate, pixIterTrace_filter_save,
      apply_ite (List.filter isSaveEv)]
    simp [isSaveEv]
  · unfold pixFinalTrace
    split <;> rfl
  · rw [sgFinalTrace_eq_pix]
    unfold pixFinalTrace
    split <;> rfl

/-- C6: in every epoch of both trainers the learning rate is read from the
scheduler once, at the epoch number, and that single value is assigned
first to the generator solver and then to the discriminator solver, so
both solvers enter the inner loop with equal learning rates. -/
theorem c6_equal_learning_rates (cfg : TrainCfg) (e : Nat) :
    (pixEpochTrace cfg e).filter isSetLrEv =
      [Ev.setLr Sol.g (cfg.lrSched e), Ev.setLr Sol.d (cfg.lrSched e)]
    ∧ (sgEpochTrace cfg e).filter isSetLrEv =
      [Ev.setLr Sol.g (cfg.lrSched e), Ev.setLr Sol.d (cfg.lrSched e)] := by
  constructor
  · simp only [pixEpochTrace, List.filter_append, List.filter_flatten,
      List.map_replicate, pixIterTrace_filter_setLr,
      apply_ite (List.filter isSetLrEv)]
    simp [isSetLrEv]
  · simp only [sgEpochTrace, sgIterTrace_eq_pix, List.filter_append,
      List.filter_flatten, List.map_replicate, pixIterTrace_filter_setLr,
      apply_ite (List.filter isSetLrEv)]
    simp [isSetLrEv]

lemma pixIterTrace_no_save (cfg : TrainCfg) (f : String) :
    Ev.save f ∉ pixIterTrace cfg := by
  by_cases h : 1 < cfg.n_procs
  · simp only [pixIterTrace, if_pos h]; simp
  · simp only [pixIterTrace, if_neg h]; simp

lemma pixLoadTrace_no_save (cfg : TrainCfg) (f : String) :
    Ev.save f ∉ pixLoadTrace cfg := by
  unfold pixLoadTrace
  cases cfg.loadPath with
  | none => simp
  | some p =>
    by_cases h0 : p = ""
    · simp [h0]
    · by_cases h1 : cfg.pathExists p <;> simp [h0, h1]

lemma pixEpochTrace_save_char (cfg : TrainCfg) (e : Nat) (f : String) :
    Ev.save f ∈ pixEpochTrace cfg e →
    f = pathJoin cfg.savePath (epochSaveName e) := by
  intro h
  simp only [pixEpochTrace, List.mem_append] at h
  rcases h with ((((h | h) | h) | h) | h)
  · revert h; split <;> simp
  · simp at h
  · rw [List.mem_flatten] at h
    obtain ⟨l, hl, hf⟩ := h
    rw [List.eq_of_mem_replicate hl] at hf
    exact absurd hf (pixIterTrace_no_save cfg f)
  · simp at h
  · revert h; split <;> simp

lemma sgEpochTrace_save_char (cfg : TrainCfg) (e : Nat) (f : String) :
    Ev.save f ∈ sgEpochTrace cfg e →
    f = pathJoin cfg.savePath (epochSaveName e) := by
  intro h
  simp only [sgEpochTrace, sgIterTrace_eq_pix, List.mem_append] at h
  rcases h with ((((h | h) | h) | h) | h)
  · revert h; split <;> simp
  · simp at h
  · rw [List.mem_flatten] at h
    obtain ⟨l, hl, hf⟩ := h
    rw [List.eq_of_mem_replicate hl] at hf
    exact absurd hf (pixIterTrace_no_save cfg f)
  · simp at h
  · revert h; split <;> simp

lemma pathJoin_keeps_h5 (a b s : String) (h : b = s ++ ".h5") :
    ∃ stem, pathJoin a b = stem ++ ".h5" := by
  unfold pathJoin
  split
  · exact ⟨s, h⟩
  · split
    · exact ⟨s, h⟩
    · split
      · exact ⟨a ++ s, by rw [h, ← String.append_assoc]⟩
      · exact ⟨a ++ "/" ++ s, by rw [h, ← String.append_assoc]⟩

/-- C5: every file name a trainer passes to `nn.save_parameters` is the
configured save path joined with either `'param_{:03d}.h5'.format(e)` for
an epoch `e` of the loop or `'param_final.h5'`, and in particular it ends
in `.h5`. -/
theorem c5_checkpoint_files_end_in_h5 (cfg : TrainCfg) (f : String)
    (h : Ev.save f ∈ pixTrainTrace cfg ∨ Ev.save f ∈ sgTrainTrace cfg) :
    ((∃ e, e < cfg.maxEpoch
        ∧ f = pathJoin cfg.savePath (epochSaveName e))
      ∨ f = pathJoin cfg.savePath "param_final.h5")
    ∧ ∃ stem, f = stem ++ ".h5" := by
  have hshape :
      (∃ e, e < cfg.maxEpoch
        ∧ f = pathJoin cfg.savePath (epochSaveName e))
      ∨ f = pathJoin cfg.savePath "param_final.h5" := by
    rcases h with h | h
    · simp only [pixTrainTrace, List.mem_append] at h
      rcases h with (h | h) | h
      · exact absurd h (pixLoadTrace_no_save cfg f)
      · rw [List.mem_flatten] at h
        obtain ⟨l, hl, hf⟩ := h
        rw [List.mem_map] at hl
        obtain ⟨e, he, rfl⟩ := hl
        exact Or.inl ⟨e, List.mem_range.mp he,
          pixEpochTrace_save_char cfg e f hf⟩
      · refine Or.inr ?_
        revert h; unfold pixFinalTrace; split <;> simp
    · simp only [sgTrainTrace, List.mem_append] at h
      rcases h with (h | h) | h
      · rw [sgLoadTrace_eq_pix] at h
        exact absurd h (pixLoadTrace_no_save cfg f)
      · rw [List.mem_flatten] at h
        obtain ⟨l, hl, hf⟩ := h
        rw [List.mem_map] at hl
        obtain ⟨e, he, rfl⟩ := hl
        exact Or.inl ⟨e, List.mem_range.mp he,
          sgEpochTrace_save_char cfg e f hf⟩
      · refine Or.inr ?_
        rw [sgFinalTrace_eq_pix] at h
        revert h; unfold pixFinalTrace; split <;> simp
  refine ⟨hshape, ?_⟩
  rcases hshape with ⟨e, _, rfl⟩ | rfl
  · exact pathJoin_keeps_h5 _ _ ("param_" ++ pad3 e) rfl
  · exact pathJoin_keeps_h5 _ _ "param_final" (by decide)

/-- Witness for C5 at a concrete configuration whose trace contains the
final checkpoint save. -/
theorem c5_checkpoint_files_end_in_h5_witness :
    ((∃ e, e < 0
        ∧ pathJoin "out" "param_final.h5" = pathJoin "out" (epochSaveName e))
      ∨ pathJoin "out" "param_final.h5" = pathJoin "out" "param_final.h5")
    ∧ ∃ stem, pathJoin "out" "param_final.h5" = stem ++ ".h5" :=
  c5_checkpoint_files_end_in_h5
    (TrainCfg.mk 1 0 0 1 0 0 none (fun _ => false) "out" (fun _ => 0))
    (pathJoin "out" "param_final.h5")
    (Or.inl (by simp [pixTrainTrace, pixLoadTrace, pixFinalTrace]))

/-- C7: the integer-valued fields of the single WaveGlow `HParams` object
have exactly the values fixed in `hparams.py`. -/
theorem c7_waveglow_hparams_values :
    hparams.sr = 22050
    ∧ hparams.n_fft = 1024
    ∧ hparams.n_mels = 80
    ∧ hparams.hop_length = 256
    ∧ hparams.win_length = 1024
    ∧ hparams.n_flows = 12
    ∧ hparams.n_groups = 8
    ∧ hparams.n_early_every = 4
    ∧ hparams.n_early_size = 2
    ∧ hparams.segment_length = 8000
    ∧ hparams.wn_n_layers = 8
    ∧ hparams.wn_kernel_size = 3
    ∧ hparams.wn_n_channels = 256
    ∧ hparams.seed = 123456
    ∧ hparams.batch_size = 4
    ∧ hparams.epoch = 1001
    ∧ hparams.print_frequency = 20
    ∧ hparams.epochs_per_checkpoint = 50 := by
  decide

/-- C9: both `__init__` methods store `max(fix_global_epoch, 0)`, so the
attribute is always non-negative, equals the argument when the argument is
non-negative, and equals 0 when the argument is negative. -/
theorem c9_fix_global_epoch_clamped (x : Int) :
    (0 ≤ pix_fix_global_epoch_attr x
      ∧ (0 ≤ x → pix_fix_global_epoch_attr x = x)
      ∧ (x < 0 → pix_fix_global_epoch_attr x = 0))
    ∧ (0 ≤ sg_fix_global_epoch_attr x
      ∧ (0 ≤ x → sg_fix_global_epoch_attr x = x)
      ∧ (x < 0 → sg_fix_global_epoch_attr x = 0)) := by
  unfold pix_fix_global_epoch_attr sg_fix_global_epoch_attr
  constructor <;>
    exact ⟨le_max_right x 0,
      fun h => max_eq_left h,
      fun h => max_eq_right (le_of_lt h)⟩

/-- Witness for C9 at a negative and a non-negative argument. -/
theorem c9_fix_global_epoch_clamped_witness :
    pix_fix_global_epoch_attr (-7) = 0 ∧ pix_fix_global_epoch_attr 3 = 3 :=
  ⟨((c9_fix_global_epoch_clamped (-7)).1.2.2 (by decide)),
   ((c9_fix_global_epoch_clamped 3).1.2.1 (by decide))⟩

lemma filterOpt_eq_filter {α : Type} (f : α → Option Bool) (g : α → Bool)
    (l : List α) (h : ∀ a ∈ l, f a = some (g a)) :
    filterOpt f l = some (l.filter g) := by
  induction l with
  | nil => rfl
  | cons a as ih =>
    have ha := h a (List.mem_cons_self a as)
    have has : ∀ b ∈ as, f b = some (g b) :=
      fun b hb => h b (List.mem_cons_of_mem a hb)
    simp only [filterOpt, ha, ih has]
    rw [List.filter_cons]

lemma keepParam_of_two_comps (k : String)
    (h : 2 ≤ (splitSlash k).length) :
    keepParam k =
      some (secondToLastComp k != "instance_normalization") := by
  unfold keepParam pyGetNeg2 secondToLastComp
  rw [if_neg (by omega)]
  cases hx : (splitSlash k).get? ((splitSlash k).length - 2) with
  | none =>
    exact absurd (List.get?_eq_none.mp hx) (by omega)
  | some c =>
    rw [List.getD_eq_getElem?_getD, ← List.get?_eq_getElem?, hx]
    simp

/-- C8: for every parameter dict and every string `p`,
`get_params_startswith(p, ignore_in=True)` keeps exactly the entries whose
key starts with `p` and whose second-to-last `/`-component is not
`instance_normalization` (assuming every key has at least two components,
as nnabla's scoped parameter names do — otherwise Python's `split("/")[-2]`
raises `IndexError`); with `ignore_in=False` it keeps exactly the entries
whose key starts with `p`; every key of any returned dict starts with `p`. -/
theorem c8_get_params_startswith_spec {V : Type}
    (params : List (String × V)) (p : String)
    (h : ∀ kv ∈ params, 2 ≤ (splitSlash kv.1).length) :
    get_params_startswith params p true =
      some (params.filter (fun kv =>
        pyStartswith kv.1 p
        && (secondToLastComp kv.1 != "instance_normalization")))
    ∧ get_params_startswith params p false =
      some (params.filter (fun kv => pyStartswith kv.1 p))
    ∧ (∀ (b : Bool) (l : List (String × V)),
        get_params_startswith params p b = some l →
        ∀ kv ∈ l, pyStartswith kv.1 p = true) := by
  have hkeep : filterOpt (fun kv : String × V => keepParam kv.1) params =
      some (params.filter (fun kv =>
        secondToLastComp kv.1 != "instance_normalization")) :=
    filterOpt_eq_filter _ _ _
      (fun kv hkv => keepParam_of_two_comps kv.1 (h kv hkv))
  refine ⟨?_, rfl, ?_⟩
  · simp only [get_params_startswith, if_pos trivial, hkeep]
    rw [List.filter_filter]
  · intro b l hl kv hkv
    cases b with
    | false =>
      simp only [get_params_startswith] at hl
      cases hl
      exact (List.mem_filter.mp hkv).2
    | true =>
      simp only [get_params_startswith, if_pos trivial, hkeep] at hl
      cases hl
      exact (List.mem_filter.mp hkv).2

/-- Witness for C8 on a concrete parameter dict: the instance-norm entry is
dropped, the discriminator entry does not start with the prefix, the
generator conv entry is kept. -/
theorem c8_get_params_startswith_spec_witness :
    get_params_startswith
      [("generator/local/conv/W", (0 : Nat)),
       ("generator/instance_normalization/beta", 1),
       ("discriminator/conv/W", 2)] "generator" true =
      some [("generator/local/conv/W", 0)]
    ∧ get_params_startswith
      [("generator/local/conv/W", (0 : Nat)),
       ("generator/instance_normalization/beta", 1),
       ("discriminator/conv/W", 2)] "generator" false =
      some [("generator/local/conv/W", 0),
            ("generator/instance_normalization/beta", 1)] := by
  have hc := c8_get_params_startswith_spec
    [("generator/local/conv/W", (0 : Nat)),
     ("generator/instance_normalization/beta", 1),
     ("discriminator/conv/W", 2)] "generator" (by decide)
  exact ⟨hc.1.trans (by decide), hc.2.1.trans (by decide)⟩

lemma runBlocks_preserving (fft : Nat → Shape → Option Shape → Option Shape)
    (mask : Option Shape) (h : ∀ i s m, fft i s m = some s) :
    ∀ (is : List Nat) (x : Shape),
      runBlocks fft mask is x = some (x, is.map DecOp.fftBlock) := by
  intro is
  induction is with
  | nil => intro x; rfl
  | cons i rest ih =>
    intro x
    simp only [runBlocks, h, ih, List.map_cons]

/-- C10: `Decoder.call` on an embedding of shape `(B, max_len, dim)` with
`mask=None` returns a result of the same shape `(B, max_len, dim)`,
obtained by adding the positional encoding tiled over the batch dimension
and then applying the FFT blocks in index order `0` to `decoder_layer - 1`,
with no mask transpose and no `masked_fill` in the operation trace.  The
externally defined pieces are hypotheses: the positional encoding has shape
`(1, max_len, dim)`, `hp.batch_size` is the batch size `B` of the input,
and each FFT block preserves the shape of its input. -/
theorem c10_decoder_call_no_mask (B maxLen dim : Nat) (hp : DecoderHP)
    (posEnc : Shape)
    (fft : Nat → Shape → Option Shape → Option Shape)
    (maskedFill : Shape → Shape → Option Shape)
    (hbs : hp.batch_size = B)
    (hpe : posEnc = [1, maxLen, dim])
    (hfft : ∀ i s m, fft i s m = some s) :
    decoderCall hp posEnc fft maskedFill [B, maxLen, dim] none =
      some ([B, maxLen, dim],
        DecOp.addPosEnc ::
          (List.range hp.decoder_layer).map DecOp.fftBlock) := by
  subst hbs
  subst hpe
  have ht : tileShape [1, maxLen, dim] [hp.batch_size, 1, 1]
      = [hp.batch_size, maxLen, dim] := by
    simp [tileShape]
  have ha : addShape [hp.batch_size, maxLen, dim]
      [hp.batch_size, maxLen, dim] = some [hp.batch_size, maxLen, dim] := by
    simp [addShape]
  have hr := runBlocks_preserving fft none hfft
    (List.range hp.decoder_layer) [hp.batch_size, maxLen, dim]
  simp only [decoderCall, ht, ha, hr]

/-- Witness for C10 at concrete shapes: batch 2, max length 4, hidden 5,
3 decoder layers, shape-preserving blocks. -/
theorem c10_decoder_call_no_mask_witness :
    decoderCall (DecoderHP.mk 2 3) [1, 4, 5] (fun _ s _ => some s)
      (fun s _ => some s) [2, 4, 5] none =
      some ([2, 4, 5],
        DecOp.addPosEnc :: (List.range 3).map DecOp.fftBlock) :=
  c10_decoder_call_no_mask 2 4 5 (DecoderHP.mk 2 3) [1, 4, 5]
    (fun _ s _ => some s) (fun s _ => some s) rfl rfl
    (fun _ _ _ => rfl)
